import Mathlib

/-!
Shallow embedding of `src/main.rs` (a personal reminder utility built on a
shared task store, a JSON persistence layer, per-task notification timers and
an interrupt-driven shutdown path), together with proofs checking the
design-document claims against it.

Conventions:
* Rust `u64` / `i64` values are modelled as `Nat` / `Int`; where a machine
  cast matters it is written out as an explicit `% 2 ^ 64`.
* The external `serde_json` library is modelled at the level of its observable
  behaviour on this program's data: a JSON text renderer matching
  `serde_json::to_string::<Vec<Task>>` and a JSON text parser plus record
  decoder matching `serde_json::from_str::<Vec<Task>>` (fields in any order,
  unknown fields ignored, duplicate or missing fields rejected, `u64` range
  enforced for `deadline`).  Numbers are modelled as (optionally signed)
  integers; fractional or exponent syntax is rejected at the text level, where
  `serde_json` would reject it at the `u64`-decode step — either way the load
  fails, which is the only fact the claims use.
* The file system is a pure state: a finite map from paths to file contents
  plus a set of created directories.
-/

deriving instance DecidableEq for Except

namespace Todo

/-- Priority of a task, from `main.rs` lines 19-24. -/
inductive Priority
  | Low
  | Medium
  | High
deriving DecidableEq, Repr

/-- A task record, from `main.rs` lines 26-32.  `deadline` is a Rust `u64`
(seconds since the epoch), modelled as `Nat`; `completed` is a mandatory
`bool` field of the struct. -/
structure Task where
  content : String
  deadline : Nat
  priority : Priority
  completed : Bool
deriving DecidableEq, Repr

/-- Generic JSON value, the intermediate form of the `serde_json` model.
Numbers carry an `Int` (see the header note on fractional syntax). -/
inductive Json
  | null
  | bool (b : Bool)
  | num (n : Int)
  | str (s : String)
  | arr (items : List Json)
  | obj (fields : List (String × Json))

/-! ### Rendering: the model of `serde_json::to_string::<Vec<Task>>` -/

/-- Decimal digit character for `n < 10`. -/
def digitChar (n : Nat) : Char := Char.ofNat (48 + n)

/-- Lowercase hexadecimal digit character for `n < 16`, as emitted by
`serde_json` in `\u00XX` escapes. -/
def hexChar (n : Nat) : Char :=
  if n < 10 then Char.ofNat (48 + n) else Char.ofNat (87 + n)

/-- Fuel-driven most-significant-first decimal rendering of a `Nat`. -/
def natCharsAux : Nat → Nat → List Char
  | 0, _ => []
  | fuel + 1, n =>
    if n < 10 then [digitChar n]
    else natCharsAux fuel (n / 10) ++ [digitChar (n % 10)]

/-- Decimal rendering of a `Nat`, matching `serde_json`'s integer output. -/
def natChars (n : Nat) : List Char := natCharsAux (n + 1) n

/-- Escape of one character inside a JSON string literal, matching
`serde_json`'s escape table: quote and backslash get a two-character escape,
the control characters 0x08/0x09/0x0A/0x0C/0x0D get their short escapes, the
remaining control characters become `\u00XX` with lowercase hex, everything
else is emitted verbatim. -/
def escapeChar (c : Char) : List Char :=
  if c = '"' then [ '\\', '"' ]
  else if c = '\\' then [ '\\', '\\' ]
  else if c.toNat = 8 then [ '\\', 'b' ]
  else if c.toNat = 9 then [ '\\', 't' ]
  else if c.toNat = 10 then [ '\\', 'n' ]
  else if c.toNat = 12 then [ '\\', 'f' ]
  else if c.toNat = 13 then [ '\\', 'r' ]
  else if c.toNat < 32 then
    [ '\\', 'u', '0', '0', hexChar (c.toNat / 16), hexChar (c.toNat % 16) ]
  else [c]

/-- Escaped body of a JSON string literal. -/
def escapeChars : List Char → List Char
  | [] => []
  | c :: cs => escapeChar c ++ escapeChars cs

/-- A JSON string literal (including the surrounding quotes). -/
def renderString (s : String) : List Char :=
  '"' :: escapeChars s.toList ++ [ '"' ]

/-- String tag of a `Priority`, as serde writes a unit enum variant. -/
def priorityTag : Priority → String
  | .Low => "Low"
  | .Medium => "Medium"
  | .High => "High"

/-- Serialized form of a `Priority`. -/
def renderPriority (p : Priority) : List Char :=
  renderString (priorityTag p)

/-- Serialized form of a `Bool`. -/
def renderBool (b : Bool) : List Char :=
  if b then [ 't', 'r', 'u', 'e' ] else [ 'f', 'a', 'l', 's', 'e' ]

/-- Serialized form of one `Task` record: a JSON object with the four struct
fields in declaration order, no whitespace, as `serde_json::to_string`
produces. -/
def renderTask (t : Task) : List Char :=
  [ '\x7b' ] ++ renderString "content" ++ [ ':' ] ++ renderString t.content
    ++ [ ',' ] ++ renderString "deadline" ++ [ ':' ] ++ natChars t.deadline
    ++ [ ',' ] ++ renderString "priority" ++ [ ':' ] ++ renderPriority t.priority
    ++ [ ',' ] ++ renderString "completed" ++ [ ':' ] ++ renderBool t.completed
    ++ [ '\x7d' ]

/-- Comma-separated serialized tasks. -/
def renderTaskList : List Task → List Char
  | [] => []
  | [t] => renderTask t
  | t :: ts => renderTask t ++ [ ',' ] ++ renderTaskList ts

/-- Model of `serde_json::to_string(&Vec<Task>)` (`main.rs` line 159): a JSON
array of task objects, rendered without whitespace. -/
def serdeToString (ts : List Task) : String :=
  String.mk ([ '[' ] ++ renderTaskList ts ++ [ ']' ])

/-! ### Parsing: the model of `serde_json::from_str::<Vec<Task>>` -/

/-- JSON whitespace predicate. -/
def isWs (c : Char) : Bool :=
  c = ' ' || c = '\t' || c = '\n' || c = '\r'

/-- Skip leading JSON whitespace. -/
def skipWs : List Char → List Char
  | [] => []
  | c :: cs => if isWs c then skipWs cs else c :: cs

/-- Numeric value of a hexadecimal digit character, either case accepted on
input. -/
def fromHexDigit (c : Char) : Option Nat :=
  if 48 ≤ c.toNat ∧ c.toNat ≤ 57 then some (c.toNat - 48)
  else if 97 ≤ c.toNat ∧ c.toNat ≤ 102 then some (c.toNat - 87)
  else if 65 ≤ c.toNat ∧ c.toNat ≤ 70 then some (c.toNat - 55)
  else none

/-- Single-character escapes accepted after a backslash in a JSON string. -/
def unescapeChar (e : Char) : Option Char :=
  if e = '"' then some '"'
  else if e = '\\' then some '\\'
  else if e = '/' then some '/'
  else if e = 'b' then some (Char.ofNat 8)
  else if e = 't' then some (Char.ofNat 9)
  else if e = 'n' then some (Char.ofNat 10)
  else if e = 'f' then some (Char.ofNat 12)
  else if e = 'r' then some (Char.ofNat 13)
  else none

/-- Body of a JSON string literal, after the opening quote: returns the
decoded characters and the input after the closing quote.  Raw control
characters are rejected, as JSON requires.  (Surrogate-pair `\u` escapes are
not combined; they never arise in this program's data.) -/
def parseStringBody : List Char → Option (List Char × List Char)
  | [] => none
  | c :: cs =>
    if c = '"' then some ([], cs)
    else if c = '\\' then
      match cs with
      | [] => none
      | e :: cs2 =>
        if e = 'u' then
          match cs2 with
          | a :: b :: c2 :: d :: cs3 =>
            match fromHexDigit a, fromHexDigit b, fromHexDigit c2, fromHexDigit d with
            | some va, some vb, some vc, some vd =>
              (parseStringBody cs3).map fun p =>
                (Char.ofNat (((va * 16 + vb) * 16 + vc) * 16 + vd) :: p.1, p.2)
            | _, _, _, _ => none
          | _ => none
        else
          match unescapeChar e with
          | some ch => (parseStringBody cs2).map fun p => (ch :: p.1, p.2)
          | none => none
    else if c.toNat < 32 then none
    else (parseStringBody cs).map fun p => (c :: p.1, p.2)

/-- Accumulating decimal value of a digit string. -/
def digitsVal : Nat → List Char → Nat
  | acc, [] => acc
  | acc, c :: cs => digitsVal (acc * 10 + (c.toNat - 48)) cs

/-- Parse a non-empty run of decimal digits. -/
def parseNat (l : List Char) : Option (Nat × List Char) :=
  if l.takeWhile Char.isDigit = [] then none
  else some (digitsVal 0 (l.takeWhile Char.isDigit), l.dropWhile Char.isDigit)

mutual

/-- Fuel-driven recursive-descent parse of one JSON value (leading whitespace
allowed), returning the value and the rest of the input. -/
def parseValue : Nat → List Char → Option (Json × List Char)
  | 0, _ => none
  | fuel + 1, input =>
    match skipWs input with
    | [] => none
    | c :: cs =>
      if c = 'n' then
        match cs with
        | 'u' :: 'l' :: 'l' :: r => some (.null, r)
        | _ => none
      else if c = 't' then
        match cs with
        | 'r' :: 'u' :: 'e' :: r => some (.bool true, r)
        | _ => none
      else if c = 'f' then
        match cs with
        | 'a' :: 'l' :: 's' :: 'e' :: r => some (.bool false, r)
        | _ => none
      else if c = '"' then
        (parseStringBody cs).map fun p => (.str (String.mk p.1), p.2)
      else if c = '[' then
        if (skipWs cs).head? = some ']' then some (.arr [], (skipWs cs).tail)
        else (parseItems fuel (skipWs cs)).map fun p => (.arr p.1, p.2)
      else if c = '\x7b' then
        if (skipWs cs).head? = some '\x7d' then some (.obj [], (skipWs cs).tail)
        else (parseFields fuel (skipWs cs)).map fun p => (.obj p.1, p.2)
      else if c = '-' then
        (parseNat cs).map fun p => (.num (-(p.1 : Int)), p.2)
      else if c.isDigit then
        (parseNat (c :: cs)).map fun p => (.num (p.1 : Int), p.2)
      else none

/-- Items of a non-empty JSON array, up to and including the closing
bracket. -/
def parseItems : Nat → List Char → Option (List Json × List Char)
  | 0, _ => none
  | fuel + 1, input =>
    match parseValue fuel input with
    | none => none
    | some (v, r) =>
      match skipWs r with
      | ',' :: r2 => (parseItems fuel r2).map fun p => (v :: p.1, p.2)
      | ']' :: r2 => some ([v], r2)
      | _ => none

/-- Fields of a non-empty JSON object, up to and including the closing
brace. -/
def parseFields : Nat → List Char → Option (List (String × Json) × List Char)
  | 0, _ => none
  | fuel + 1, input =>
    match skipWs input with
    | '"' :: cs =>
      match parseStringBody cs with
      | none => none
      | some (k, r1) =>
        match skipWs r1 with
        | ':' :: r2 =>
          match parseValue fuel r2 with
          | none => none
          | some (v, r3) =>
            match skipWs r3 with
            | ',' :: r4 => (parseFields fuel r4).map fun p => ((String.mk k, v) :: p.1, p.2)
            | '\x7d' :: r4 => some ([(String.mk k, v)], r4)
            | _ => none
        | _ => none
    | _ => none

end

/-- Parse a complete JSON text: one value, possibly surrounded by whitespace,
with nothing after it (as `serde_json::from_str` requires).  The fuel
`2 * length + 2` dominates the recursion depth of any input. -/
def parseJsonText (s : String) : Option Json :=
  match parseValue (2 * s.length + 2) s.toList with
  | some (v, rest) => if skipWs rest = [] then some v else none
  | none => none

/-! ### Decoding a parsed JSON value into `Vec<Task>` -/

/-- Errors of the modelled `serde_json::from_str::<Vec<Task>>`.  The real
library reports strings; only the success/failure split and the decoded value
matter to the claims. -/
inductive DeErr
  | badJson
  | notArray
  | notObject
  | badField (name : String)
  | duplicateField (name : String)
  | missingField (name : String)
deriving DecidableEq, Repr

/-- JSON value of a `Priority`, the parsed image of `renderPriority`. -/
def priorityJson (p : Priority) : Json := .str (priorityTag p)

/-- JSON value of a `Task`, the parsed image of `renderTask`. -/
def taskJson (t : Task) : Json :=
  .obj [("content", .str t.content), ("deadline", .num t.deadline),
    ("priority", priorityJson t.priority), ("completed", .bool t.completed)]

/-- Decode of the `Priority` enum from its serde unit-variant form. -/
def decodePriority : Json → Option Priority
  | .str "Low" => some .Low
  | .str "Medium" => some .Medium
  | .str "High" => some .High
  | _ => none

/-- Field-by-field decode of a `Task` object, mirroring the derived serde
deserializer: fields may come in any order, an unknown field is ignored, a
duplicate known field is an error, a missing field is an error, and
`deadline` must be an integer in `u64` range. -/
def decodeTaskGo : List (String × Json) → Option String → Option Nat →
    Option Priority → Option Bool → Except DeErr Task
  | [], some c, some d, some p, some b => .ok ⟨c, d, p, b⟩
  | [], none, _, _, _ => .error (.missingField "content")
  | [], _, none, _, _ => .error (.missingField "deadline")
  | [], _, _, none, _ => .error (.missingField "priority")
  | [], _, _, _, none => .error (.missingField "completed")
  | (k, v) :: fs, c, d, p, b =>
    if k = "content" then
      match c with
      | some _ => .error (.duplicateField "content")
      | none =>
        match v with
        | .str s => decodeTaskGo fs (some s) d p b
        | _ => .error (.badField "content")
    else if k = "deadline" then
      match d with
      | some _ => .error (.duplicateField "deadline")
      | none =>
        match v with
        | .num n =>
          if 0 ≤ n ∧ n < 18446744073709551616 then decodeTaskGo fs c (some n.toNat) p b
          else .error (.badField "deadline")
        | _ => .error (.badField "deadline")
    else if k = "priority" then
      match p with
      | some _ => .error (.duplicateField "priority")
      | none =>
        match decodePriority v with
        | some pr => decodeTaskGo fs c d (some pr) b
        | none => .error (.badField "priority")
    else if k = "completed" then
      match b with
      | some _ => .error (.duplicateField "completed")
      | none =>
        match v with
        | .bool bb => decodeTaskGo fs c d p (some bb)
        | _ => .error (.badField "completed")
    else decodeTaskGo fs c d p b

/-- Decode of one `Task` from a JSON value. -/
def decodeTask : Json → Except DeErr Task
  | .obj fs => decodeTaskGo fs none none none none
  | _ => .error .notObject

/-- Decode of a list of tasks, failing on the first bad element. -/
def decodeTaskList : List Json → Except DeErr (List Task)
  | [] => .ok []
  | j :: js =>
    match decodeTask j with
    | .error e => .error e
    | .ok t =>
      match decodeTaskList js with
      | .error e => .error e
      | .ok ts => .ok (t :: ts)

/-- Model of `serde_json::from_str::<Vec<Task>>` (`main.rs` line 184): parse
the text as JSON and decode it as an array of task records. -/
def serdeFromStr (s : String) : Except DeErr (List Task) :=
  match parseJsonText s with
  | none => .error .badJson
  | some (.arr items) => decodeTaskList items
  | some _ => .error .notArray

/-! ### File-system model and the persistence layer -/

/-- Pure file-system state: files as an association list from path to
contents, plus the set of directories known to exist. -/
structure FsState where
  files : List (String × String)
  dirs : List String
deriving DecidableEq, Repr

/-- Contents of the file at `path`, or `none` when it does not exist. -/
def FsState.read (fs : FsState) (path : String) : Option String :=
  (fs.files.find? fun kv => kv.1 == path).map Prod.snd

/-- Create or fully overwrite the file at `path`. -/
def FsState.writeFile (fs : FsState) (path : String) (data : String) : FsState :=
  { fs with files := (path, data) :: fs.files.filter fun kv => kv.1 != path }

/-- Model of `fs::create_dir_all`: record the directory (with its implied
ancestor chain, which the path string denotes) as existing. -/
def FsState.mkdirAll (fs : FsState) (dir : String) : FsState :=
  { fs with dirs := dir :: fs.dirs }

/-- Characters strictly before the last slash of a path. -/
def beforeLastSlash (l : List Char) : List Char :=
  ((l.reverse.dropWhile fun c => c != '/').drop 1).reverse

/-- Model of `Path::parent` rendered back to a string: the path up to (not
including) its last separator, or `none` when the path has no separator.
(This covers the `dir.../file` shapes the program builds; Rust additionally
returns `Some("")` for a bare relative file name.) -/
def parentOf (path : String) : Option String :=
  if path.toList.contains '/' then some (String.mk (beforeLastSlash path.toList))
  else none

/-- Create the parent directory of `path` when it has one, as the
`if let Some(parent) = create_path.parent()` blocks do. -/
def createParentDirs (fs : FsState) (path : String) : FsState :=
  match parentOf path with
  | some parent => fs.mkdirAll parent
  | none => fs

/-- Model of `file_exists(path, create)` (`main.rs` lines 141-155): when the
path exists, report `true`; otherwise, when `create` is set, create the
parent directories and an empty file at `path` and report `true`; otherwise
report `false`. -/
def file_exists (fs : FsState) (path : String) (create : Bool) : FsState × Bool :=
  if (fs.read path).isSome then (fs, true)
  else if create then ((createParentDirs fs path).writeFile path "", true)
  else (fs, false)

/-- Model of `save` (`main.rs` lines 157-164): serialize the store snapshot
(taken under the guard; the guard acquisition itself appears in the
`mainEvents` trace) with `serde_json::to_string`, ensure the file exists
(creating parent directories as needed), and overwrite it in full.  In the
pure file-system model the I/O cannot fail; main's tolerance of a failing
save is modelled by `mainShutdownResult`. -/
def save (store : List Task) (fs : FsState) (path : String) : FsState :=
  let data := serdeToString store
  let fs1 := (file_exists fs path true).1
  fs1.writeFile path data

/-- Model of `load` (`main.rs` lines 166-186): read the file; when it is
missing, create the parent directories, create an EMPTY file at `path`,
ignore the result of that write, and continue with the fallback text `"[]"`;
finally parse the data with `serde_json::from_str`. -/
def load (fs : FsState) (path : String) : FsState × Except DeErr (List Task) :=
  match fs.read path with
  | some data => (fs, serdeFromStr data)
  | none => (((createParentDirs fs path).writeFile path ""), serdeFromStr "[]")

/-! ### Date parsing and validation -/

/-- The four `panic!`/`expect` sites of `timestamp_from_date`. -/
inductive PanicKind
  | parseFailed
  | ambiguousLocal
  | pastDeadline
  | tooFarFuture
deriving DecidableEq, Repr

/-- Outcome of `timestamp_from_date`: either a returned `u64` timestamp, or a
panic, which aborts the calling flow (and, unhandled, the process). -/
inductive TfdOutcome
  | returns (t : Nat)
  | panics (k : PanicKind)
deriving DecidableEq, Repr

/-- Model of `timestamp_from_date` (`main.rs` lines 102-139).  The chrono
parsing pipeline — parse the trimmed input as `dd/mm/yyyy HH:MM`, retry with
a `" 00:00"` suffix appended, then resolve the naive datetime in the local
time zone — is external to the program; its result enters the model as
`parsed`: `.error e` when both parse attempts fail, `.ok none` when the
local-time resolution is ambiguous or non-existent (`.single()` returns no
value), and `.ok (some ts)` for a timestamp `ts` (an `i64`).  `now` is
`Local::now().timestamp()`, read at entry.  The final `as u64` cast is the
two's-complement reinterpretation, `ts mod 2 ^ 64`. -/
def timestamp_from_date (now : Int) (parsed : Except String (Option Int)) : TfdOutcome :=
  match parsed with
  | .error _ => .panics .parseFailed
  | .ok none => .panics .ambiguousLocal
  | .ok (some ts) =>
    if ts < now then .panics .pastDeadline
    else if ts > now + 3153600000 then .panics .tooFarFuture
    else .returns (ts % 18446744073709551616).toNat

/-! ### The timer unit and the main control flow -/

/-- One desktop-notification request, as handed to the external notification
collaborator (`main.rs` lines 201-205). -/
structure NotifyReq where
  summary : String
  body : String
  icon : String
deriving DecidableEq, Repr

/-- Seconds for which a spawned `timer` sleeps before firing (`main.rs` line
200): a fixed 5-second sleep that consults neither the clock nor the task's
deadline. -/
def timerSleepSecs (_now : Nat) (_task : Task) : Nat := 5

/-- Notification requests issued by one `timer` run after it wakes
(`main.rs` lines 201-205): exactly one, with the task's content as the
summary and a fixed body. -/
def timerNotify (task : Task) (icon : String) : List NotifyReq :=
  [ ⟨task.content, "Time\x27s up", icon⟩ ]

/-- Instant, in seconds from the moment the timer starts, at which the timer
spawned for `task` fires its notification. -/
def timerFireTime (now : Nat) (task : Task) : Nat :=
  now + timerSleepSecs now task

/-- Events of the `main` control flow, as observed by the task-store guard. -/
inductive MainEv
  | lockStore
  | unlockStore
  | spawnTimer (i : Nat)
  | awaitTimer (i : Nat)
  | runUi
  | awaitCtrlC
  | persistStore
  | exitMain
deriving DecidableEq, Repr

/-- Straight-line trace of `main` (`main.rs` lines 66-97) for a store of `n`
tasks.  First guard scope: build the UI list, explicit `drop` (lines 66-73).
Second guard scope (lines 77-89): spawn one timer per task, then await every
timer handle; the guard is dropped at the END of that block, after the
awaits.  Then the UI runs, main waits for Ctrl-C, and the shutdown path
locks, persists (`save`) and returns. -/
def mainEvents (n : Nat) : List MainEv :=
  [ .lockStore, .unlockStore ]
    ++ [ .lockStore ] ++ ((List.range n).map .spawnTimer)
    ++ ((List.range n).map .awaitTimer) ++ [ .unlockStore ]
    ++ [ .runUi, .awaitCtrlC, .lockStore, .persistStore, .unlockStore, .exitMain ]

/-- Whether the store guard is held after the given event prefix has run:
more acquisitions than releases so far. -/
def guardHeldAfter (evs : List MainEv) : Bool :=
  evs.count .unlockStore < evs.count .lockStore

/-- Whether the store guard is held while the event at index `i` runs. -/
def guardHeldAt (evs : List MainEv) (i : Nat) : Bool :=
  guardHeldAfter (evs.take i)

/-- Model of the tail of `main` (`main.rs` lines 93-97): the result of the
shutdown-time `save` is discarded (`let _ = save(...).await;`) and `main`
returns `Ok(())` regardless of it. -/
def mainShutdownResult (_saveResult : Except String Unit) : Except String Unit :=
  .ok ()

/-! ### Round trip of string literals -/

theorem fromHexDigit_hexChar : ∀ n < 16, fromHexDigit (hexChar n) = some n := by decide

theorem parseStringBody_quote (r : List Char) : parseStringBody ('"' :: r) = some ([], r) := by
  rw [parseStringBody.eq_def]
  simp

theorem parseStringBody_esc (e : Char) (ch : Char) (r : List Char)
    (hu : ¬ e = 'u') (h : unescapeChar e = some ch) :
    parseStringBody ('\\' :: e :: r) = (parseStringBody r).map fun p => (ch :: p.1, p.2) := by
  rw [parseStringBody.eq_def]
  simp +decide [hu, h]

theorem parseStringBody_hex (a b c2 d : Char) (va vb vc vd : Nat) (r : List Char)
    (ha : fromHexDigit a = some va) (hb : fromHexDigit b = some vb)
    (hc : fromHexDigit c2 = some vc) (hd : fromHexDigit d = some vd) :
    parseStringBody ('\\' :: 'u' :: a :: b :: c2 :: d :: r)
      = (parseStringBody r).map fun p =>
          (Char.ofNat (((va * 16 + vb) * 16 + vc) * 16 + vd) :: p.1, p.2) := by
  rw [parseStringBody.eq_def]
  simp +decide [ha, hb, hc, hd]

theorem parseStringBody_plain (c : Char) (r : List Char)
    (h1 : ¬ c = '"') (h2 : ¬ c = '\\') (h3 : ¬ c.toNat < 32) :
    parseStringBody (c :: r) = (parseStringBody r).map fun p => (c :: p.1, p.2) := by
  rw [parseStringBody.eq_def]
  simp [h1, h2, h3]

theorem parseStringBody_escape (s : List Char) (rest : List Char) :
    parseStringBody (escapeChars s ++ '"' :: rest) = some (s, rest) := by
  induction s with
  | nil =>
    rw [show escapeChars [] ++ '"' :: rest = '"' :: rest by simp [escapeChars]]
    exact parseStringBody_quote rest
  | cons c cs ih =>
    have hassoc : escapeChars (c :: cs) ++ '"' :: rest
        = escapeChar c ++ (escapeChars cs ++ '"' :: rest) := by
      simp [escapeChars]
    rw [hassoc]
    by_cases h1 : c = '"'
    · subst h1
      rw [show escapeChar '"' = [ '\\', '"' ] from by decide]
      simp [parseStringBody_esc '"' '"' _ (by decide) (by decide), ih]
    by_cases h2 : c = '\\'
    · subst h2
      rw [show escapeChar '\\' = [ '\\', '\\' ] from by decide]
      simp [parseStringBody_esc '\\' '\\' _ (by decide) (by decide), ih]
    by_cases h3 : c.toNat = 8
    · have hc : Char.ofNat 8 = c := by rw [← h3, Char.ofNat_toNat]
      rw [show escapeChar c = [ '\\', 'b' ] from by simp [escapeChar, h1, h2, h3]]
      simp [parseStringBody_esc 'b' (Char.ofNat 8) _ (by decide) (by decide), ih]
      exact hc
    by_cases h4 : c.toNat = 9
    · have hc : Char.ofNat 9 = c := by rw [← h4, Char.ofNat_toNat]
      rw [show escapeChar c = [ '\\', 't' ] from by simp [escapeChar, h1, h2, h3, h4]]
      simp [parseStringBody_esc 't' (Char.ofNat 9) _ (by decide) (by decide), ih]
      exact hc
    by_cases h5 : c.toNat = 10
    · have hc : Char.ofNat 10 = c := by rw [← h5, Char.ofNat_toNat]
      rw [show escapeChar c = [ '\\', 'n' ] from by simp [escapeChar, h1, h2, h3, h4, h5]]
      simp [parseStringBody_esc 'n' (Char.ofNat 10) _ (by decide) (by decide), ih]
      exact hc
    by_cases h6 : c.toNat = 12
    · have hc : Char.ofNat 12 = c := by rw [← h6, Char.ofNat_toNat]
      rw [show escapeChar c = [ '\\', 'f' ] from by simp [escapeChar, h1, h2, h3, h4, h5, h6]]
      simp [parseStringBody_esc 'f' (Char.ofNat 12) _ (by decide) (by decide), ih]
      exact hc
    by_cases h7 : c.toNat = 13
    · have hc : Char.ofNat 13 = c := by rw [← h7, Char.ofNat_toNat]
      rw [show escapeChar c = [ '\\', 'r' ] from by
        simp [escapeChar, h1, h2, h3, h4, h5, h6, h7]]
      simp [parseStringBody_esc 'r' (Char.ofNat 13) _ (by decide) (by decide), ih]
      exact hc
    by_cases h8 : c.toNat < 32
    · have hhi : fromHexDigit (hexChar (c.toNat / 16)) = some (c.toNat / 16) :=
        fromHexDigit_hexChar _ (by omega)
      have hlo : fromHexDigit (hexChar (c.toNat % 16)) = some (c.toNat % 16) :=
        fromHexDigit_hexChar _ (by omega)
      have hc : Char.ofNat (c.toNat / 16 * 16 + c.toNat % 16) = c := by
        rw [show c.toNat / 16 * 16 + c.toNat % 16 = c.toNat from by omega, Char.ofNat_toNat]
      rw [show escapeChar c
          = [ '\\', 'u', '0', '0', hexChar (c.toNat / 16), hexChar (c.toNat % 16) ] from by
        simp [escapeChar, h1, h2, h3, h4, h5, h6, h7, h8]]
      simp [parseStringBody_hex '0' '0' (hexChar (c.toNat / 16)) (hexChar (c.toNat % 16))
        0 0 (c.toNat / 16) (c.toNat % 16) (escapeChars cs ++ '"' :: rest)
        (by decide) (by decide) hhi hlo, ih]
      exact hc
    · rw [show escapeChar c = [c] from by simp [escapeChar, h1, h2, h3, h4, h5, h6, h7, h8]]
      simp [parseStringBody_plain c _ h1 h2 h8, ih]

/-! ### Round trip of decimal numbers -/

theorem digitChar_isDigit : ∀ m < 10, (digitChar m).isDigit = true := by decide

theorem digitChar_toNat : ∀ m < 10, (digitChar m).toNat = 48 + m := by decide

theorem natCharsAux_irrel (f1 : Nat) : ∀ (f2 n : Nat), n < f1 → n < f2 →
    natCharsAux f1 n = natCharsAux f2 n := by
  induction f1 with
  | zero => intro f2 n h1 h2; omega
  | succ f ih =>
    intro f2 n h1 h2
    cases f2 with
    | zero => omega
    | succ f2p =>
      simp only [natCharsAux]
      by_cases h10 : n < 10
      · simp [h10]
      · have hdiv : n / 10 < n := Nat.div_lt_self (by omega) (by omega)
        simp only [h10, if_false]
        rw [ih f2p (n / 10) (by omega) (by omega)]

theorem natChars_eq (n : Nat) :
    natChars n = if n < 10 then [digitChar n] else natChars (n / 10) ++ [digitChar (n % 10)] := by
  have step : natChars n
      = if n < 10 then [digitChar n] else natCharsAux n (n / 10) ++ [digitChar (n % 10)] := rfl
  rw [step]
  by_cases h10 : n < 10
  · simp [h10]
  · have hdiv : n / 10 < n := Nat.div_lt_self (by omega) (by omega)
    simp only [h10, if_false]
    rw [natCharsAux_irrel n (n / 10 + 1) (n / 10) (by omega) (by omega)]
    exact rfl

theorem natChars_digits (n : Nat) : ∀ c ∈ natChars n, c.isDigit = true := by
  induction n using Nat.strong_induction_on with
  | _ n ih =>
    rw [natChars_eq]
    by_cases h10 : n < 10
    · simp only [h10, if_true]
      intro c hc
      rw [List.mem_singleton] at hc
      subst hc
      exact digitChar_isDigit n h10
    · have hdiv : n / 10 < n := Nat.div_lt_self (by omega) (by omega)
      simp only [h10, if_false]
      intro c hc
      rw [List.mem_append] at hc
      rcases hc with hc | hc
      · exact ih (n / 10) hdiv c hc
      · rw [List.mem_singleton] at hc
        subst hc
        exact digitChar_isDigit _ (by omega)

theorem natChars_ne_nil (n : Nat) : natChars n ≠ [] := by
  rw [natChars_eq]
  by_cases h10 : n < 10 <;> simp [h10]

theorem digitsVal_nil (acc : Nat) : digitsVal acc [] = acc := rfl

theorem digitsVal_cons (acc : Nat) (c : Char) (cs : List Char) :
    digitsVal acc (c :: cs) = digitsVal (acc * 10 + (c.toNat - 48)) cs := rfl

theorem digitsVal_snoc (l : List Char) : ∀ (acc : Nat) (c : Char),
    digitsVal acc (l ++ [c]) = digitsVal acc l * 10 + (c.toNat - 48) := by
  induction l with
  | nil =>
    intro acc c
    rw [List.nil_append, digitsVal_cons, digitsVal_nil, digitsVal_nil]
  | cons d l ih =>
    intro acc c
    rw [List.cons_append, digitsVal_cons, digitsVal_cons, ih]

theorem digitsVal_natChars (n : Nat) : digitsVal 0 (natChars n) = n := by
  induction n using Nat.strong_induction_on with
  | _ n ih =>
    rw [natChars_eq]
    by_cases h10 : n < 10
    · simp only [h10, if_true]
      rw [digitsVal_cons, digitsVal_nil, digitChar_toNat n h10]
      omega
    · have hdiv : n / 10 < n := Nat.div_lt_self (by omega) (by omega)
      simp only [h10, if_false]
      rw [digitsVal_snoc, ih (n / 10) hdiv, digitChar_toNat (n % 10) (by omega)]
      omega

theorem takeWhile_append_stop (p : Char → Bool) (l : List Char) (c : Char) (r : List Char)
    (hl : ∀ x ∈ l, p x = true) (hc : p c = false) :
    (l ++ c :: r).takeWhile p = l ∧ (l ++ c :: r).dropWhile p = c :: r := by
  induction l with
  | nil => simp [List.takeWhile_cons, List.dropWhile_cons, hc]
  | cons d l ih =>
    have hd : p d = true := hl d (by simp)
    have hrest := ih fun x hx => hl x (by simp [hx])
    simp [List.takeWhile_cons, List.dropWhile_cons, hd, hrest.1, hrest.2]

theorem parseNat_natChars (n : Nat) (c : Char) (r : List Char) (hc : c.isDigit = false) :
    parseNat (natChars n ++ c :: r) = some (n, c :: r) := by
  have h := takeWhile_append_stop Char.isDigit (natChars n) c r (natChars_digits n) hc
  unfold parseNat
  rw [h.1, h.2]
  simp [natChars_ne_nil n, digitsVal_natChars n]

/-! ### Parsing scalar values out of rendered text -/

theorem isWs_false_of_isDigit (c : Char) (h : c.isDigit = true) : isWs c = false := by
  have h1 : ¬ c = ' ' := by rintro rfl; exact absurd h (by decide)
  have h2 : ¬ c = '\t' := by rintro rfl; exact absurd h (by decide)
  have h3 : ¬ c = '\n' := by rintro rfl; exact absurd h (by decide)
  have h4 : ¬ c = '\r' := by rintro rfl; exact absurd h (by decide)
  simp [isWs, h1, h2, h3, h4]

theorem parseValue_string (f : Nat) (s : String) (rest : List Char) :
    parseValue (f + 1) (renderString s ++ rest) = some (.str s, rest) := by
  have hshape : renderString s ++ rest = '"' :: (escapeChars s.toList ++ '"' :: rest) := by
    simp [renderString]
  rw [hshape, parseValue.eq_def]
  simp +decide [skipWs, parseStringBody_escape]

theorem parseValue_bool (f : Nat) (b : Bool) (rest : List Char) :
    parseValue (f + 1) (renderBool b ++ rest) = some (.bool b, rest) := by
  cases b
  · rw [show renderBool false ++ rest = 'f' :: 'a' :: 'l' :: 's' :: 'e' :: rest from rfl,
      parseValue.eq_def]
    simp +decide [skipWs]
  · rw [show renderBool true ++ rest = 't' :: 'r' :: 'u' :: 'e' :: rest from rfl,
      parseValue.eq_def]
    simp +decide [skipWs]

theorem parseValue_natLit (f : Nat) (n : Nat) (c : Char) (r : List Char)
    (hc : c.isDigit = false) :
    parseValue (f + 1) (natChars n ++ c :: r) = some (.num n, c :: r) := by
  obtain ⟨d, ds, hd⟩ : ∃ d ds, natChars n = d :: ds := by
    cases h : natChars n with
    | nil => exact absurd h (natChars_ne_nil n)
    | cons d ds => exact ⟨d, ds, rfl⟩
  have hdig : d.isDigit = true := natChars_digits n d (by rw [hd]; simp)
  have hws : isWs d = false := isWs_false_of_isDigit d hdig
  have hn : ¬ d = 'n' := by rintro rfl; exact absurd hdig (by decide)
  have ht : ¬ d = 't' := by rintro rfl; exact absurd hdig (by decide)
  have hf : ¬ d = 'f' := by rintro rfl; exact absurd hdig (by decide)
  have hq : ¬ d = '"' := by rintro rfl; exact absurd hdig (by decide)
  have hbr : ¬ d = '[' := by rintro rfl; exact absurd hdig (by decide)
  have hbc : ¬ d = '\x7b' := by rintro rfl; exact absurd hdig (by decide)
  have hm : ¬ d = '-' := by rintro rfl; exact absurd hdig (by decide)
  rw [hd, List.cons_append, parseValue.eq_def]
  simp only [skipWs, hws, if_false, Bool.false_eq_true]
  simp only [hn, ht, hf, hq, hbr, hbc, hm, if_false, hdig, if_true]
  rw [← List.cons_append, ← hd, parseNat_natChars n c r hc]
  rfl

/-! ### Parsing whole rendered task objects and arrays -/

theorem parseFields_completed (f : Nat) (hf : 2 ≤ f) (b : Bool) (rest : List Char) :
    parseFields f (renderString "completed" ++ ':' :: (renderBool b ++ '\x7d' :: rest))
      = some ([("completed", Json.bool b)], rest) := by
  obtain ⟨f1, rfl⟩ : ∃ f1, f = f1 + 1 + 1 := ⟨f - 2, by omega⟩
  have hshape : renderString "completed" ++ ':' :: (renderBool b ++ '\x7d' :: rest)
      = '"' :: (escapeChars "completed".toList
          ++ '"' :: ':' :: (renderBool b ++ '\x7d' :: rest)) := by
    simp [renderString]
  rw [hshape, parseFields.eq_def]
  simp +decide [skipWs, parseStringBody_escape, parseValue_bool]

theorem parseFields_priority (f : Nat) (hf : 3 ≤ f) (p : Priority) (b : Bool)
    (rest : List Char) :
    parseFields f (renderString "priority" ++ ':' :: (renderPriority p
        ++ ',' :: (renderString "completed" ++ ':' :: (renderBool b ++ '\x7d' :: rest))))
      = some ([("priority", priorityJson p), ("completed", Json.bool b)], rest) := by
  obtain ⟨f1, rfl⟩ : ∃ f1, f = f1 + 1 + 1 := ⟨f - 2, by omega⟩
  have hshape : renderString "priority" ++ ':' :: (renderPriority p
        ++ ',' :: (renderString "completed" ++ ':' :: (renderBool b ++ '\x7d' :: rest)))
      = '"' :: (escapeChars "priority".toList ++ '"' :: ':' :: (renderString (priorityTag p)
          ++ ',' :: (renderString "completed" ++ ':' :: (renderBool b ++ '\x7d' :: rest)))) := by
    simp [renderString, renderPriority]
  rw [hshape, parseFields.eq_def]
  simp +decide [skipWs, parseStringBody_escape, parseValue_string, priorityJson,
    parseFields_completed (f1 + 1) (by omega)]

theorem parseFields_deadline (f : Nat) (hf : 4 ≤ f) (d : Nat) (p : Priority) (b : Bool)
    (rest : List Char) :
    parseFields f (renderString "deadline" ++ ':' :: (natChars d
        ++ ',' :: (renderString "priority" ++ ':' :: (renderPriority p
        ++ ',' :: (renderString "completed" ++ ':' :: (renderBool b ++ '\x7d' :: rest))))))
      = some ([("deadline", Json.num d), ("priority", priorityJson p),
          ("completed", Json.bool b)], rest) := by
  obtain ⟨f1, rfl⟩ : ∃ f1, f = f1 + 1 + 1 := ⟨f - 2, by omega⟩
  have hshape : renderString "deadline" ++ ':' :: (natChars d
        ++ ',' :: (renderString "priority" ++ ':' :: (renderPriority p
        ++ ',' :: (renderString "completed" ++ ':' :: (renderBool b ++ '\x7d' :: rest)))))
      = '"' :: (escapeChars "deadline".toList ++ '"' :: ':' :: (natChars d
          ++ ',' :: (renderString "priority" ++ ':' :: (renderPriority p
          ++ ',' :: (renderString "completed" ++ ':' :: (renderBool b ++ '\x7d' :: rest)))))) := by
    simp [renderString]
  rw [hshape, parseFields.eq_def]
  simp +decide [skipWs, parseStringBody_escape,
    parseValue_natLit f1 d ',' _ (by decide),
    parseFields_priority (f1 + 1) (by omega)]

theorem parseFields_content (f : Nat) (hf : 5 ≤ f) (c : String) (d : Nat) (p : Priority)
    (b : Bool) (rest : List Char) :
    parseFields f (renderString "content" ++ ':' :: (renderString c
        ++ ',' :: (renderString "deadline" ++ ':' :: (natChars d
        ++ ',' :: (renderString "priority" ++ ':' :: (renderPriority p
        ++ ',' :: (renderString "completed" ++ ':' :: (renderBool b ++ '\x7d' :: rest))))))))
      = some ([("content", Json.str c), ("deadline", Json.num d),
          ("priority", priorityJson p), ("completed", Json.bool b)], rest) := by
  obtain ⟨f1, rfl⟩ : ∃ f1, f = f1 + 1 + 1 := ⟨f - 2, by omega⟩
  have hshape : renderString "content" ++ ':' :: (renderString c
        ++ ',' :: (renderString "deadline" ++ ':' :: (natChars d
        ++ ',' :: (renderString "priority" ++ ':' :: (renderPriority p
        ++ ',' :: (renderString "completed" ++ ':' :: (renderBool b ++ '\x7d' :: rest)))))))
      = '"' :: (escapeChars "content".toList ++ '"' :: ':' :: (renderString c
          ++ ',' :: (renderString "deadline" ++ ':' :: (natChars d
          ++ ',' :: (renderString "priority" ++ ':' :: (renderPriority p
          ++ ',' :: (renderString "completed" ++ ':' :: (renderBool b ++ '\x7d' :: rest)))))))) := by
    simp [renderString]
  rw [hshape, parseFields.eq_def]
  simp +decide [skipWs, parseStringBody_escape, parseValue_string,
    parseFields_deadline (f1 + 1) (by omega)]

theorem parseValue_renderTask (f : Nat) (hf : 6 ≤ f) (t : Task) (rest : List Char) :
    parseValue f (renderTask t ++ rest) = some (taskJson t, rest) := by
  obtain ⟨f1, rfl⟩ : ∃ f1, f = f1 + 1 := ⟨f - 1, by omega⟩
  have hshape : renderTask t ++ rest
      = '\x7b' :: (renderString "content" ++ ':' :: (renderString t.content
          ++ ',' :: (renderString "deadline" ++ ':' :: (natChars t.deadline
          ++ ',' :: (renderString "priority" ++ ':' :: (renderPriority t.priority
          ++ ',' :: (renderString "completed" ++ ':' :: (renderBool t.completed
          ++ '\x7d' :: rest)))))))) := by
    simp [renderTask]
  rw [hshape, parseValue.eq_def]
  have hquote : renderString "content" ++ ':' :: (renderString t.content
        ++ ',' :: (renderString "deadline" ++ ':' :: (natChars t.deadline
        ++ ',' :: (renderString "priority" ++ ':' :: (renderPriority t.priority
        ++ ',' :: (renderString "completed" ++ ':' :: (renderBool t.completed
        ++ '\x7d' :: rest)))))))
      = '"' :: (escapeChars "content".toList ++ '"' :: ':' :: (renderString t.content
        ++ ',' :: (renderString "deadline" ++ ':' :: (natChars t.deadline
        ++ ',' :: (renderString "priority" ++ ':' :: (renderPriority t.priority
        ++ ',' :: (renderString "completed" ++ ':' :: (renderBool t.completed
        ++ '\x7d' :: rest)))))))) := by
    simp [renderString]
  have hskip : skipWs (renderString "content" ++ ':' :: (renderString t.content
        ++ ',' :: (renderString "deadline" ++ ':' :: (natChars t.deadline
        ++ ',' :: (renderString "priority" ++ ':' :: (renderPriority t.priority
        ++ ',' :: (renderString "completed" ++ ':' :: (renderBool t.completed
        ++ '\x7d' :: rest))))))))
      = renderString "content" ++ ':' :: (renderString t.content
        ++ ',' :: (renderString "deadline" ++ ':' :: (natChars t.deadline
        ++ ',' :: (renderString "priority" ++ ':' :: (renderPriority t.priority
        ++ ',' :: (renderString "completed" ++ ':' :: (renderBool t.completed
        ++ '\x7d' :: rest))))))) := by
    rw [hquote]
    simp +decide [skipWs]
  have hhead : (renderString "content" ++ ':' :: (renderString t.content
        ++ ',' :: (renderString "deadline" ++ ':' :: (natChars t.deadline
        ++ ',' :: (renderString "priority" ++ ':' :: (renderPriority t.priority
        ++ ',' :: (renderString "completed" ++ ':' :: (renderBool t.completed
        ++ '\x7d' :: rest)))))))).head?
      = some '"' := by
    rw [hquote]
    simp
  simp +decide [skipWs, hskip, hhead, taskJson]
  exact parseFields_content f1 (by omega) t.content t.deadline t.priority t.completed rest

theorem parseItems_renderTaskList (ts : List Task) : ∀ (f : Nat) (t : Task)
    (rest : List Char), 7 * (ts.length + 1) ≤ f →
    parseItems f (renderTaskList (t :: ts) ++ ']' :: rest)
      = some ((t :: ts).map taskJson, rest) := by
  induction ts with
  | nil =>
    intro f t rest hf
    obtain ⟨f1, rfl⟩ : ∃ f1, f = f1 + 1 := ⟨f - 1, by omega⟩
    rw [show renderTaskList [t] = renderTask t from rfl, parseItems.eq_def]
    simp +decide [skipWs, parseValue_renderTask f1 (by omega)]
  | cons t2 ts2 ih =>
    intro f t rest hf
    simp only [List.length_cons] at hf
    obtain ⟨f1, rfl⟩ : ∃ f1, f = f1 + 1 := ⟨f - 1, by omega⟩
    have hshape : renderTaskList (t :: t2 :: ts2) ++ ']' :: rest
        = renderTask t ++ ',' :: (renderTaskList (t2 :: ts2) ++ ']' :: rest) := by
      rw [show renderTaskList (t :: t2 :: ts2)
          = renderTask t ++ [ ',' ] ++ renderTaskList (t2 :: ts2) from rfl]
      simp
    rw [hshape, parseItems.eq_def]
    simp +decide [skipWs, parseValue_renderTask f1 (by omega),
      ih f1 t2 rest (by omega)]

theorem renderTask_length_ge (t : Task) : 4 ≤ (renderTask t).length := by
  simp [renderTask, renderString, List.length_append]
  omega

theorem renderTaskList_length_ge (ts : List Task) :
    4 * ts.length ≤ (renderTaskList ts).length := by
  induction ts with
  | nil => simp [renderTaskList]
  | cons t ts2 ih =>
    cases ts2 with
    | nil =>
      have := renderTask_length_ge t
      simpa [renderTaskList] using this
    | cons t3 ts3 =>
      have h1 := renderTask_length_ge t
      rw [show renderTaskList (t :: t3 :: ts3)
          = renderTask t ++ [ ',' ] ++ renderTaskList (t3 :: ts3) from rfl]
      simp only [List.length_append, List.length_cons, List.length_nil]
      simp only [List.length_cons] at ih ⊢
      omega

/-! ### Decoding rendered tasks -/

theorem decodePriority_priorityJson (p : Priority) :
    decodePriority (priorityJson p) = some p := by
  cases p <;> rfl

theorem decodeTask_step1 (c : String) (di : Int) (p : Priority) (b : Bool) :
    decodeTask (Json.obj [("content", Json.str c), ("deadline", Json.num di),
        ("priority", priorityJson p), ("completed", Json.bool b)])
      = if 0 ≤ di ∧ di < 18446744073709551616 then
          decodeTaskGo [("priority", priorityJson p), ("completed", Json.bool b)]
            (some c) (some di.toNat) none none
        else .error (.badField "deadline") := rfl

theorem decodeTask_taskJson (t : Task) (h : t.deadline < 18446744073709551616) :
    decodeTask (taskJson t) = .ok t := by
  obtain ⟨c, d, p, b⟩ := t
  simp only at h
  have hd : (0 : Int) ≤ (d : Int) ∧ (d : Int) < 18446744073709551616 :=
    ⟨Int.natCast_nonneg d, by exact_mod_cast h⟩
  rw [show taskJson ⟨c, d, p, b⟩
      = Json.obj [("content", Json.str c), ("deadline", Json.num (d : Int)),
          ("priority", priorityJson p), ("completed", Json.bool b)] from rfl]
  rw [decodeTask_step1 c (d : Int) p b, if_pos hd, Int.toNat_natCast]
  have step2 : decodeTaskGo [("priority", priorityJson p), ("completed", Json.bool b)]
        (some c) (some d) none none
      = match decodePriority (priorityJson p) with
        | some pr => decodeTaskGo [("completed", Json.bool b)] (some c) (some d) (some pr) none
        | none => .error (.badField "priority") := rfl
  rw [step2, decodePriority_priorityJson p]
  exact rfl

theorem decodeTaskList_cons_ok (j : Json) (js : List Json) (t : Task) (ts : List Task)
    (hj : decodeTask j = .ok t) (hjs : decodeTaskList js = .ok ts) :
    decodeTaskList (j :: js) = .ok (t :: ts) := by
  rw [show decodeTaskList (j :: js)
      = (match decodeTask j with
         | .error e => .error e
         | .ok tk =>
           match decodeTaskList js with
           | .error e => .error e
           | .ok tks => Except.ok (tk :: tks)) from rfl]
  rw [hj]
  show (match decodeTaskList js with
        | .error e => .error e
        | .ok tks => Except.ok (t :: tks)) = Except.ok (t :: ts)
  rw [hjs]

theorem decodeTaskList_map (ts : List Task)
    (h : ∀ t ∈ ts, t.deadline < 18446744073709551616) :
    decodeTaskList (ts.map taskJson) = .ok ts := by
  induction ts with
  | nil => rfl
  | cons t ts2 ih =>
    rw [List.map_cons]
    exact decodeTaskList_cons_ok _ _ _ _ (decodeTask_taskJson t (h t (by simp)))
      (ih fun x hx => h x (by simp [hx]))

/-! ### The save-then-load round trip -/

theorem serde_roundtrip (ts : List Task)
    (h : ∀ t ∈ ts, t.deadline < 18446744073709551616) :
    serdeFromStr (serdeToString ts) = .ok ts := by
  cases ts with
  | nil => decide
  | cons t ts2 =>
    unfold serdeFromStr parseJsonText
    have hlist : (serdeToString (t :: ts2)).toList
        = '[' :: (renderTaskList (t :: ts2) ++ ']' :: []) := rfl
    have hlen : (serdeToString (t :: ts2)).length
        = (renderTaskList (t :: ts2)).length + 2 := by
      simp [serdeToString]
    rw [hlist, hlen]
    have hlb := renderTaskList_length_ge (t :: ts2)
    obtain ⟨y, hy⟩ : ∃ y, renderTaskList (t :: ts2) ++ ']' :: ([] : List Char)
        = '\x7b' :: y := by
      cases ts2 with
      | nil =>
        exact ⟨_, by rw [show renderTaskList [t] = renderTask t from rfl]; simp [renderTask]; rfl⟩
      | cons t3 ts3 =>
        exact ⟨_, by
          rw [show renderTaskList (t :: t3 :: ts3)
              = renderTask t ++ [ ',' ] ++ renderTaskList (t3 :: ts3) from rfl]
          simp [renderTask]
          rfl⟩
    have hF : 2 * ((renderTaskList (t :: ts2)).length + 2) + 2
        = (2 * (renderTaskList (t :: ts2)).length + 5) + 1 := by omega
    rw [hF, parseValue.eq_def]
    have hskip : skipWs (renderTaskList (t :: ts2) ++ ']' :: [])
        = renderTaskList (t :: ts2) ++ ']' :: [] := by
      rw [hy]
      simp +decide [skipWs]
    have hhead : (renderTaskList (t :: ts2) ++ ']' :: ([] : List Char)).head?
        = some '\x7b' := by
      rw [hy]
      simp
    have hitems := parseItems_renderTaskList ts2
      (2 * (renderTaskList (t :: ts2)).length + 5) t []
      (by simp only [List.length_cons] at hlb ⊢; omega)
    simp +decide [skipWs, hskip, hhead, hitems]
    have hdec := decodeTaskList_map (t :: ts2) h
    rw [List.map_cons] at hdec
    exact hdec

/-! ### File-system facts -/

theorem read_writeFile_self (fs : FsState) (p d : String) :
    (fs.writeFile p d).read p = some d := by
  simp [FsState.read, FsState.writeFile]

theorem dirs_writeFile (fs : FsState) (p d : String) :
    (fs.writeFile p d).dirs = fs.dirs := rfl

theorem save_read_self (store : List Task) (fs : FsState) (path : String) :
    (save store fs path).read path = some (serdeToString store) := by
  unfold save
  exact read_writeFile_self _ _ _

theorem load_missing (fs : FsState) (path : String) (h : fs.read path = none) :
    load fs path = ((createParentDirs fs path).writeFile path "", serdeFromStr "[]") := by
  unfold load
  rw [h]

theorem load_found (fs : FsState) (path : String) (data : String)
    (h : fs.read path = some data) :
    load fs path = (fs, serdeFromStr data) := by
  unfold load
  rw [h]

theorem tfd_ok_some (now ts : Int) :
    timestamp_from_date now (.ok (some ts))
      = if ts < now then .panics .pastDeadline
        else if ts > now + 3153600000 then .panics .tooFarFuture
        else .returns (ts % 18446744073709551616).toNat := rfl

/-! ### Claim theorems -/

/-- C1: evaluation of the scheduler at the claim's failing input.  The claim
says each spawned timer suspends for exactly the remaining duration to its
task's deadline and that three tasks due at +1s/+2s/+3s fire in increasing
time order.  The code (`main.rs` line 200) sleeps a fixed 5 seconds: for the
three tasks the sleep durations are all 5 (not 1, 2, 3) and all three fire at
+5s, not in increasing deadline order — while each timer does issue exactly
one notification with the task's content as its summary. -/
theorem c1_timer_sleeps_fixed_five_seconds :
    ([⟨"t1", 1, .Low, false⟩, ⟨"t2", 2, .Low, false⟩,
        ⟨"t3", 3, .Low, false⟩].map (timerSleepSecs 0) = [5, 5, 5]) ∧
    ¬ timerSleepSecs 0 ⟨"t1", 1, Priority.Low, false⟩ = 1 ∧
    ([⟨"t1", 1, .Low, false⟩, ⟨"t2", 2, .Low, false⟩,
        ⟨"t3", 3, .Low, false⟩].map (timerFireTime 0) = [5, 5, 5]) ∧
    (timerNotify ⟨"t1", 1, Priority.Low, false⟩ "icon").map NotifyReq.summary = ["t1"] := by
  decide

/-- C2: evaluation at the claim's failing input (a store of one task).  In
the trace of `main`, the await of the spawned timer handle (event index 4)
runs while the store guard is held: the guard scope of lines 77-89 ends only
after the await loop, so the guard is NOT released before the program blocks
on the timer. -/
theorem c2_guard_held_across_timer_await :
    (mainEvents 1)[4]? = some (.awaitTimer 0) ∧ guardHeldAt (mainEvents 1) 4 = true := by
  decide

/-- C3: after the interrupt is received the main flow acquires the guard,
persists the store snapshot, releases, and only then exits; the persisted
file holds the serialized snapshot; and `main` discards the save result and
returns `Ok(())`, so a persistence failure does not prevent process exit. -/
theorem c3_shutdown_persist_then_exit (n : Nat) (fs : FsState) (path : String)
    (store : List Task) (r : Except String Unit) :
    (∃ pre, mainEvents n
      = pre ++ [ .awaitCtrlC, .lockStore, .persistStore, .unlockStore, .exitMain ]) ∧
    (save store fs path).read path = some (serdeToString store) ∧
    mainShutdownResult r = .ok () := by
  refine ⟨⟨[ .lockStore, .unlockStore, .lockStore ] ++ ((List.range n).map .spawnTimer)
    ++ ((List.range n).map .awaitTimer) ++ [ .unlockStore, .runUi ], ?_⟩,
    save_read_self store fs path, rfl⟩
  simp [mainEvents]

/-- C4: save-then-load round trip.  For every file system, path and store
whose deadlines are in `u64` range (as every value of the Rust `u64` field
is), saving the store and loading the same path returns exactly the same
task list — same `content`, `deadline`, `priority` and `completed` values in
the same order. -/
theorem c4_save_load_roundtrip (fs : FsState) (path : String) (store : List Task)
    (h : ∀ t ∈ store, t.deadline < 18446744073709551616) :
    (load (save store fs path) path).2 = .ok store := by
  rw [load_found (save store fs path) path (serdeToString store) (save_read_self store fs path)]
  exact serde_roundtrip store h

/-- C4 witness: the round trip evaluated on a concrete one-task store. -/
theorem c4_save_load_roundtrip_witness :
    (load (save [⟨"a", 5, Priority.Low, false⟩] ⟨[], []⟩ "p") "p").2
      = .ok [⟨"a", 5, Priority.Low, false⟩] :=
  c4_save_load_roundtrip ⟨[], []⟩ "p" [⟨"a", 5, Priority.Low, false⟩] (by decide)

/-- C5: loading a path whose file does not exist creates the parent
directory, creates an empty file at the path, and returns the empty task
list without error. -/
theorem c5_load_missing_creates_and_returns_empty (fs : FsState) (path parent : String)
    (hmiss : fs.read path = none) (hpar : parentOf path = some parent) :
    (load fs path).2 = .ok [] ∧
    (load fs path).1.read path = some "" ∧
    parent ∈ (load fs path).1.dirs := by
  rw [load_missing fs path hmiss]
  refine ⟨?_, read_writeFile_self _ _ _, ?_⟩
  · show serdeFromStr "[]" = Except.ok []
    decide
  rw [dirs_writeFile]
  unfold createParentDirs
  rw [hpar]
  exact List.mem_cons_self _ _

/-- C5 witness: loading a missing file at a concrete home-relative path. -/
theorem c5_load_missing_witness :
    (load ⟨[], []⟩ "/home/user/todo/tasks.json").2 = .ok [] ∧
    (load ⟨[], []⟩ "/home/user/todo/tasks.json").1.read "/home/user/todo/tasks.json"
      = some "" ∧
    "/home/user/todo" ∈ (load ⟨[], []⟩ "/home/user/todo/tasks.json").1.dirs :=
  c5_load_missing_creates_and_returns_empty ⟨[], []⟩ "/home/user/todo/tasks.json"
    "/home/user/todo" (by decide) (by decide)

set_option maxRecDepth 10000 in
/-- C6 counterexample: a JSON array whose element object carries `content`,
`deadline` and `priority` but omits `completed` is rejected by the modelled
`from_str` with a missing-field error (the `completed` field of the `Task`
struct is mandatory), so such a load does not succeed as the claim states. -/
theorem c6_counterexample_completed_missing :
    serdeFromStr "[\x7b\"content\":\"a\",\"deadline\":1,\"priority\":\"Low\"\x7d]"
      = .error (.missingField "completed") := by
  decide

theorem decodeTask_step1_noCompleted (c : String) (di : Int) (p : Priority) :
    decodeTask (Json.obj [("content", Json.str c), ("deadline", Json.num di),
        ("priority", priorityJson p)])
      = if 0 ≤ di ∧ di < 18446744073709551616 then
          decodeTaskGo [("priority", priorityJson p)] (some c) (some di.toNat) none none
        else .error (.badField "deadline") := rfl

/-- C6 amended: the persisted format requires `completed`: an element object
with `content` (string), `deadline` (`u64`-range integer) and `priority`
(one of the three tags) but no `completed` fails the load with a
missing-field error, while the same object with `completed` present decodes
to the corresponding task. -/
theorem c6_completed_required (c : String) (d : Nat) (p : Priority) (b : Bool)
    (hd : d < 18446744073709551616) :
    decodeTask (Json.obj [("content", Json.str c), ("deadline", Json.num d),
        ("priority", priorityJson p)]) = .error (.missingField "completed") ∧
    decodeTask (Json.obj [("content", Json.str c), ("deadline", Json.num d),
        ("priority", priorityJson p), ("completed", Json.bool b)])
      = .ok ⟨c, d, p, b⟩ := by
  have hdi : (0 : Int) ≤ (d : Int) ∧ (d : Int) < 18446744073709551616 :=
    ⟨Int.natCast_nonneg d, by exact_mod_cast hd⟩
  constructor
  · rw [decodeTask_step1_noCompleted c (d : Int) p, if_pos hdi]
    have step2 : decodeTaskGo [("priority", priorityJson p)]
          (some c) (some ((d : Int)).toNat) none none
        = match decodePriority (priorityJson p) with
          | some pr => decodeTaskGo [] (some c) (some ((d : Int)).toNat) (some pr) none
          | none => .error (.badField "priority") := rfl
    rw [step2, decodePriority_priorityJson p]
    exact rfl
  · exact decodeTask_taskJson ⟨c, d, p, b⟩ hd

/-- C6 amended witness: the two decode results at a concrete task. -/
theorem c6_completed_required_witness :
    decodeTask (Json.obj [("content", Json.str "a"), ("deadline", Json.num 1),
        ("priority", priorityJson Priority.Low)]) = .error (.missingField "completed") ∧
    decodeTask (Json.obj [("content", Json.str "a"), ("deadline", Json.num 1),
        ("priority", priorityJson Priority.Low), ("completed", Json.bool false)])
      = .ok ⟨"a", 1, Priority.Low, false⟩ :=
  c6_completed_required "a" 1 Priority.Low false (by decide)

/-- C7 counterexample: a resolved instant exactly equal to `now` is accepted
and returned (the code only rejects `timestamp < now_timestamp`), so the
claim that an instant equal to or before now fails with the past-deadline
error is false at this input. -/
theorem c7_counterexample_equal_now_accepted :
    timestamp_from_date 100 (.ok (some 100)) = .returns 100 ∧
    ¬ timestamp_from_date 100 (.ok (some 100)) = .panics .pastDeadline := by
  decide

/-- C7 amended: a resolved instant strictly before `now` fails with the
past-deadline panic, while an instant exactly equal to `now` passes
validation and is returned. -/
theorem c7_strictly_past_rejected (now ts : Int) :
    (ts < now → timestamp_from_date now (.ok (some ts)) = .panics .pastDeadline) ∧
    (0 ≤ now → now < 9223372036854775808 →
      timestamp_from_date now (.ok (some now)) = .returns now.toNat) := by
  constructor
  · intro hlt
    rw [tfd_ok_some, if_pos hlt]
  · intro h0 hub
    rw [tfd_ok_some, if_neg (by omega), if_neg (by omega)]
    rw [Int.emod_eq_of_lt h0 (by omega)]

/-- C7 witness: both halves of the amended claim at concrete clock values. -/
theorem c7_strictly_past_rejected_witness :
    timestamp_from_date 5 (.ok (some 3)) = .panics .pastDeadline ∧
    timestamp_from_date 5 (.ok (some 5)) = .returns (Int.toNat 5) :=
  ⟨(c7_strictly_past_rejected 5 3).1 (by decide),
    (c7_strictly_past_rejected 5 5).2 (by decide) (by decide)⟩

/-- C8 counterexample: deadline-validation failures are not returned to the
caller as a typed result — the routine itself panics: at an unparseable
input the outcome is the parse-failure panic, and at a past instant it is
the past-deadline panic, both aborting the calling flow. -/
theorem c8_counterexample_validation_panics :
    timestamp_from_date 0 (.error "bad date") = .panics .parseFailed ∧
    timestamp_from_date 0 (.ok (some (-1))) = .panics .pastDeadline := by
  decide

/-- C8 amended: every deadline-validation failure of `timestamp_from_date` —
unparseable after the fallback, ambiguous/non-existent local time, past
instant, beyond the 100-year bound — makes the routine itself panic (the
process-aborting `panic!`/`expect`), with the corresponding panic site; no
typed error value is returned to the caller. -/
theorem c8_validation_failures_panic (now ts : Int) (e : String) :
    timestamp_from_date now (.error e) = .panics .parseFailed ∧
    timestamp_from_date now (.ok none) = .panics .ambiguousLocal ∧
    (ts < now → timestamp_from_date now (.ok (some ts)) = .panics .pastDeadline) ∧
    (now + 3153600000 < ts →
      timestamp_from_date now (.ok (some ts)) = .panics .tooFarFuture) := by
  refine ⟨rfl, rfl, ?_, ?_⟩
  · intro hlt
    rw [tfd_ok_some, if_pos hlt]
  · intro hgt
    rw [tfd_ok_some, if_neg (by omega), if_pos (by omega)]

/-- C8 witness: the too-far failure panics at a concrete input. -/
theorem c8_validation_failures_panic_witness :
    timestamp_from_date 0 (.ok (some 3153600001)) = .panics .tooFarFuture :=
  (c8_validation_failures_panic 0 3153600001 "x").2.2.2 (by decide)

/-- C9: with the clock nonnegative and the resolved instant in `i64` range,
an instant more than 3153600000 seconds (the fixed 100-year bound) past
`now` fails with the too-far panic, and an instant strictly after `now` and
at or below the bound is accepted and returned as its epoch-second value. -/
theorem c9_hundred_year_bound (now ts : Int) (h0 : 0 ≤ now)
    (hi64 : ts < 9223372036854775808) :
    (now + 3153600000 < ts →
      timestamp_from_date now (.ok (some ts)) = .panics .tooFarFuture) ∧
    (now < ts → ts ≤ now + 3153600000 →
      timestamp_from_date now (.ok (some ts)) = .returns ts.toNat) := by
  constructor
  · intro hgt
    rw [tfd_ok_some, if_neg (by omega), if_pos (by omega)]
  · intro hlt hle
    rw [tfd_ok_some, if_neg (by omega), if_neg (by omega)]
    rw [Int.emod_eq_of_lt (by omega) (by omega)]

/-- C9 witness: both halves at concrete instants. -/
theorem c9_hundred_year_bound_witness :
    timestamp_from_date 0 (.ok (some 3153600001)) = .panics .tooFarFuture ∧
    timestamp_from_date 0 (.ok (some 1)) = .returns (Int.toNat 1) :=
  ⟨(c9_hundred_year_bound 0 3153600001 (by decide) (by norm_num)).1 (by norm_num),
    (c9_hundred_year_bound 0 1 (by decide) (by norm_num)).2 (by norm_num) (by norm_num)⟩

/-- C10: loading a path whose file exists but is empty (zero bytes) returns
an error rather than an empty store — the empty string is not valid JSON —
and in particular the empty file that a load of a missing path creates makes
a second load of that same path fail when no save has run in between. -/
theorem c10_empty_file_load_fails (fs fs2 : FsState) (path path2 : String)
    (hempty : fs.read path = some "") (hmiss : fs2.read path2 = none) :
    (load fs path).2 = .error .badJson ∧
    (load (load fs2 path2).1 path2).2 = .error .badJson := by
  constructor
  · rw [load_found fs path "" hempty]
    show serdeFromStr "" = Except.error DeErr.badJson
    decide
  · rw [load_missing fs2 path2 hmiss]
    rw [load_found _ path2 "" (read_writeFile_self _ _ _)]
    show serdeFromStr "" = Except.error DeErr.badJson
    decide

/-- C10 witness: the double-load failure at concrete paths. -/
theorem c10_empty_file_load_fails_witness :
    (load ⟨[("p", "")], []⟩ "p").2 = .error .badJson ∧
    (load (load ⟨[], []⟩ "/todo/tasks.json").1 "/todo/tasks.json").2 = .error .badJson :=
  c10_empty_file_load_fails ⟨[("p", "")], []⟩ ⟨[], []⟩ "p" "/todo/tasks.json"
    (by decide) (by decide)

end Todo
